import Mathlib

/-!
# Verification of `include/cls/factory.hpp`

A shallow embedding of the registration-based object factory.

* `Ptr T` is the ownership wrapper: a handle is either empty (`nullptr`) or owns an object.
* `Creator` is `function<BasePtr(CtorArgs...)>`, a function from the argument pack to a handle.
  Creators are pure functions here: a creator that is an empty `std::function`, that throws,
  or that itself touches the registry is outside the model.
* `map K V` is `std::map<K, V>`: the in-order sequence of its entries.  `map.find`,
  `map.insert` and `map.erase` are the three library calls the header makes.
* `ObjFactory` is the singleton holding `creators_map`; its static member functions are
  state-passing functions on that singleton.
* The facade `Factory` picks the singleton by the pack `CtorArgs...`; the family of all
  function-local statics `obj_factory` is a function from packs to singletons.
-/

namespace cls
namespace detail

/-- The ownership wrapper `Ptr<T>`: `none` is the empty handle. -/
abbrev Ptr (T : Type) : Type := Option T

/-- The container `std::map<K, V>`, as the sequence of its entries in iteration order. -/
abbrev map (K V : Type) : Type := List (K × V)

namespace map

variable {K V : Type} [LinearOrder K]

/-- The call `m.find(k)`: the entry with key `k`, or `none` for `m.end()`. -/
def find (k : K) : map K V → Option (K × V)
  | [] => none
  | e :: rest => if e.1 = k then some e else find k rest

/-- The call `m.insert({k, v})`: the entry is placed at its position in key order; when an entry
with an equivalent key is met the container is left as it is. -/
def insert (e : K × V) : map K V → map K V
  | [] => [e]
  | x :: rest =>
    if e.1 < x.1 then e :: x :: rest
    else if x.1 < e.1 then x :: insert e rest
    else x :: rest

/-- The call `m.erase(k)`: every entry with key `k` is dropped. -/
def erase (k : K) : map K V → map K V
  | [] => []
  | x :: rest => if x.1 = k then erase k rest else x :: erase k rest

/-- The call `m.count(k)`: the number of entries with key `k`. -/
def count (k : K) (m : map K V) : Nat :=
  (m.filter (fun e => decide (e.1 = k))).length

/-- The entries are in strictly increasing key order, as the container keeps them. -/
abbrev Ordered (m : map K V) : Prop := List.Pairwise (fun a b : K × V => a.1 < b.1) m

end map

/-- The functor `FactoryCreator<T, Ptr>`: the concrete type `T` is given by its constructor
(followed by the upcast to the base type); the call operator wraps `new T(args...)` in a handle. -/
def FactoryCreator {BaseType CtorArgs : Type} (T : CtorArgs → BaseType) :
    CtorArgs → Ptr BaseType :=
  fun args => some (T args)

/-- The class `ObjFactory<BaseType, IDType, Ptr, CtorArgs...>`: its only data member. -/
structure ObjFactory (BaseType IDType CtorArgs : Type) where
  creators_map : map IDType (CtorArgs → Ptr BaseType)

namespace ObjFactory

variable {BaseType IDType CtorArgs : Type} [LinearOrder IDType]

/-- The alias `BasePtr = Ptr<BaseType>`. -/
abbrev BasePtr (BaseType : Type) : Type := Ptr BaseType

/-- The alias `Creator = function<BasePtr(CtorArgs...)>`. -/
abbrev Creator (BaseType CtorArgs : Type) : Type := CtorArgs → BasePtr BaseType

/-- A freshly constructed singleton: the map is empty. -/
def empty : ObjFactory BaseType IDType CtorArgs := ⟨[]⟩

/-- The function `addType(ID, creator)`. -/
def addType (ID : IDType) (creator : Creator BaseType CtorArgs)
    (self : ObjFactory BaseType IDType CtorArgs) :
    Bool × ObjFactory BaseType IDType CtorArgs :=
  let creators := self.creators_map
  if (map.find ID creators).isNone then
    (true, ⟨map.insert (ID, creator) creators⟩)
  else
    (false, ⟨creators⟩)

/-- The function `addType<T>(ID)`. -/
def addTypeT (T : CtorArgs → BaseType) (ID : IDType)
    (self : ObjFactory BaseType IDType CtorArgs) :
    Bool × ObjFactory BaseType IDType CtorArgs :=
  addType ID (FactoryCreator T) self

/-- The function `removeType(ID)`. -/
def removeType (ID : IDType) (self : ObjFactory BaseType IDType CtorArgs) :
    Bool × ObjFactory BaseType IDType CtorArgs :=
  let creators := self.creators_map
  if (map.find ID creators).isSome then
    (true, ⟨map.erase ID creators⟩)
  else
    (false, ⟨creators⟩)

/-- The function `create(ID, args...)`: the handle returned, with the singleton after the call. -/
def create (ID : IDType) (args : CtorArgs) (self : ObjFactory BaseType IDType CtorArgs) :
    BasePtr BaseType × ObjFactory BaseType IDType CtorArgs :=
  let creators := self.creators_map
  match map.find ID creators with
  | some iter => (iter.2 args, ⟨creators⟩)
  | none => (none, ⟨creators⟩)

/-- One call of a static member function of the table. -/
inductive Call (BaseType IDType CtorArgs : Type) where
  | addType (ID : IDType) (creator : Creator BaseType CtorArgs)
  | removeType (ID : IDType)
  | create (ID : IDType) (args : CtorArgs)

/-- The singleton after one call. -/
def Call.exec : Call BaseType IDType CtorArgs → ObjFactory BaseType IDType CtorArgs →
    ObjFactory BaseType IDType CtorArgs
  | .addType ID creator, self => (ObjFactory.addType ID creator self).2
  | .removeType ID, self => (ObjFactory.removeType ID self).2
  | .create ID args, self => (ObjFactory.create ID args self).2

/-- The singleton after a sequence of calls, first call first. -/
def run (calls : List (Call BaseType IDType CtorArgs))
    (self : ObjFactory BaseType IDType CtorArgs) : ObjFactory BaseType IDType CtorArgs :=
  calls.foldl (fun s c => c.exec s) self

/-- One call that registers through `addType<T>(ID)` or unregisters: the calls of a client that
never passes a creator of its own. -/
inductive TypedCall (BaseType IDType CtorArgs : Type) where
  | addType (T : CtorArgs → BaseType) (ID : IDType)
  | removeType (ID : IDType)

/-- The singleton after one such call. -/
def TypedCall.exec : TypedCall BaseType IDType CtorArgs →
    ObjFactory BaseType IDType CtorArgs → ObjFactory BaseType IDType CtorArgs
  | .addType T ID, self => (ObjFactory.addTypeT T ID self).2
  | .removeType ID, self => (ObjFactory.removeType ID self).2

/-- The singleton after a sequence of such calls, first call first. -/
def runTyped (calls : List (TypedCall BaseType IDType CtorArgs))
    (self : ObjFactory BaseType IDType CtorArgs) : ObjFactory BaseType IDType CtorArgs :=
  calls.foldl (fun s c => c.exec s) self

end ObjFactory

/-- The function-local statics `obj_factory` of `instance()`, one for each instantiation
`ObjFactory<BaseType, IDType, Ptr, CtorArgs...>`: with base, identifier and wrapper fixed, a
family indexed by the pack `CtorArgs...` (a list of types `Ty`).  An argument list is a list of
values `Val`, whatever the pack. -/
abbrev Instances (BaseType IDType Ty Val : Type) : Type :=
  List Ty → ObjFactory BaseType IDType (List Val)

/-- Before any call every static holds an empty map. -/
def Instances.empty {BaseType IDType Ty Val : Type} : Instances BaseType IDType Ty Val :=
  fun _ => ⟨[]⟩

/-- A static member call on `ObjFactory<BaseType, IDType, Ptr, CtorArgs...>`: the member runs on
`instance()`, the static of that instantiation, and the other statics are not touched. -/
def onInstance {BaseType IDType Ty Val R : Type} [DecidableEq Ty] (CtorArgs : List Ty)
    (member : ObjFactory BaseType IDType (List Val) → R × ObjFactory BaseType IDType (List Val))
    (s : Instances BaseType IDType Ty Val) : R × Instances BaseType IDType Ty Val :=
  let r := member (s CtorArgs)
  (r.1, Function.update s CtorArgs r.2)

end detail

namespace Factory

variable {Base IDType Ty Val : Type} [LinearOrder IDType] [DecidableEq Ty]

/-- The function `Factory<Base, IDType, Ptr>::addType<Derived, CtorArgs...>(id)`. -/
def addType (Derived : List Val → Base) (CtorArgs : List Ty) (id : IDType)
    (s : detail.Instances Base IDType Ty Val) : Bool × detail.Instances Base IDType Ty Val :=
  detail.onInstance CtorArgs (detail.ObjFactory.addType id (detail.FactoryCreator Derived)) s

/-- The function `Factory<Base, IDType, Ptr>::create(id, args...)`: the pack `CtorArgs...` is
deduced from the arguments, `deduce` giving the type deduced for one argument. -/
def create (deduce : Val → Ty) (id : IDType) (args : List Val)
    (s : detail.Instances Base IDType Ty Val) :
    detail.Ptr Base × detail.Instances Base IDType Ty Val :=
  detail.onInstance (args.map deduce) (detail.ObjFactory.create id args) s

/-- The function `Factory<Base, IDType, Ptr>::removeType<CtorArgs...>(ID)`. -/
def removeType (CtorArgs : List Ty) (ID : IDType)
    (s : detail.Instances Base IDType Ty Val) : Bool × detail.Instances Base IDType Ty Val :=
  detail.onInstance CtorArgs (detail.ObjFactory.removeType ID) s

end Factory

/-! ### The declarations of the header and the registration macros

The three `REGISTER_...` macros expand to a call `Q::C<A...>::addType<T>(ID)`.  Whether that
call names a class at all is decided by what the header declares, so the declarations are kept
as data: each class template with the namespace it is declared in and its parameter list.
The macros `_CLS_BEGIN` and `_CLS_END` are defined in `cls_defs.h`, outside this header; the
namespace path that `_CLS_BEGIN` opens is a parameter, `CLS_BEGIN`. -/

namespace factory_hpp

/-- The kind of a template parameter and of a template argument: `typename`, or
`template<typename> class`. -/
inductive Kind where
  | type
  | tmpl
  deriving DecidableEq, Repr

/-- One template parameter before the pack: its kind, and whether its declaration has a
default argument. -/
structure Param where
  kind : Kind
  hasDefault : Bool
  deriving DecidableEq, Repr

/-- A class template (or alias template) as declared: enclosing namespace, name, parameters
before the pack, and whether a `typename...` pack ends the list. -/
structure ClassTemplate where
  scope : List String
  name : String
  params : List Param
  pack : Bool
  deriving DecidableEq, Repr

/-- The templates the header declares, in order: `FactoryCreator`, `ObjFactory` and the alias
`unique_ptr` inside `namespace detail`, then `Factory`. -/
def declarations (CLS_BEGIN : List String) : List ClassTemplate :=
  [ ⟨CLS_BEGIN ++ ["detail"], "FactoryCreator", [⟨Kind.type, false⟩, ⟨Kind.tmpl, false⟩], false⟩,
    ⟨CLS_BEGIN ++ ["detail"], "ObjFactory",
      [⟨Kind.type, false⟩, ⟨Kind.type, false⟩, ⟨Kind.tmpl, false⟩], true⟩,
    ⟨CLS_BEGIN ++ ["detail"], "unique_ptr", [⟨Kind.type, false⟩], false⟩,
    ⟨CLS_BEGIN, "Factory", [⟨Kind.type, false⟩, ⟨Kind.type, true⟩, ⟨Kind.tmpl, true⟩], false⟩ ]

/-- Qualified lookup of `scope::name` among the declarations. -/
def lookup (CLS_BEGIN : List String) (scope : List String) (name : String) :
    Option ClassTemplate :=
  (declarations CLS_BEGIN).find? (fun d => decide (d.scope = scope ∧ d.name = name))

/-- Whether a template-argument list fits a parameter list: each argument has the kind of its
parameter, a parameter left without argument has a default, and arguments beyond the listed
parameters are types taken by the pack. -/
def fits : List Param → Bool → List Kind → Bool
  | [], pack, args => args.isEmpty || (pack && args.all (fun a => decide (a = Kind.type)))
  | p :: ps, pack, [] => p.hasDefault && fits ps pack []
  | p :: ps, pack, a :: rest => decide (p.kind = a) && fits ps pack rest

/-- The call a registration expands to: the class named (qualifier, name, template arguments),
the type given to `addType<T>`, and the identifier passed. -/
structure Expansion where
  scope : List String
  name : String
  args : List Kind
  T : String
  ID : String
  deriving DecidableEq, Repr

/-- The expansion of `REGISTER_TO_FACTORY(BaseType, DerivedType)`:
`cls::ObjFactory<BaseType>::addType<DerivedType>(#DerivedType)`. -/
def REGISTER_TO_FACTORY (_BaseType DerivedType : String) : Expansion :=
  ⟨["cls"], "ObjFactory", [Kind.type], DerivedType, DerivedType⟩

/-- The expansion of `REGISTER_TYPE_TO_FACTORY(DerivedType)`:
`cls::ObjFactory<DerivedType::base>::addType<DerivedType>(#DerivedType)`. -/
def REGISTER_TYPE_TO_FACTORY (DerivedType : String) : Expansion :=
  ⟨["cls"], "ObjFactory", [Kind.type], DerivedType, DerivedType⟩

/-- The expansion of `REGISTER_TO_FACTORY_WITH_CTOR(BaseType, DerivedType, Creator)`:
`cls::ObjFactory<BaseType, string, Creator>::addType<DerivedType>(#DerivedType)`; `Creator` is
whatever the caller passes, a type or a template. -/
def REGISTER_TO_FACTORY_WITH_CTOR (_BaseType DerivedType : String) (Creator : Kind) :
    Expansion :=
  ⟨["cls"], "ObjFactory", [Kind.type, Kind.type, Creator], DerivedType, DerivedType⟩

/-- The call through the facade, `cls::Factory<Base>::addType<Derived>(id)`. -/
def facadeCall (Derived id : String) : Expansion :=
  ⟨["cls"], "Factory", [Kind.type], Derived, id⟩

/-- Whether the class an expansion names is declared and takes the arguments given. -/
def Expansion.namesClass (CLS_BEGIN : List String) (e : Expansion) : Bool :=
  match lookup CLS_BEGIN e.scope e.name with
  | some d => fits d.params d.pack e.args
  | none => false

end factory_hpp

/-! ### Data of the scenario: shapes registered by name -/

namespace Scenario

/-- The base type `Shape`; an object shows its dynamic type and the arguments it was built from. -/
inductive Shape where
  | Circle (args : List Int)
  | Square (args : List Int)
  deriving DecidableEq, Repr

/-- The types an argument pack is made of. -/
inductive Ty where
  | int
  deriving DecidableEq, Repr

/-- Every argument of the scenario is an `int`. -/
def deduce : Int → Ty := fun _ => Ty.int

/-- A table holding `"Circle"` only, for the pack `(int)`. -/
def circles : detail.ObjFactory Shape String (List Int) :=
  ⟨[("Circle", detail.FactoryCreator Shape.Circle)]⟩

end Scenario
end cls

/-! ## The container -/

namespace cls
namespace detail
namespace map

variable {K V : Type} [LinearOrder K]

theorem find_eq_none_iff (k : K) (m : map K V) :
    find k m = none ↔ ∀ e ∈ m, e.1 ≠ k := by
  induction m with
  | nil => simp [find]
  | cons x rest ih =>
    by_cases hx : x.1 = k
    · simp [find, hx]
    · simp [find, hx, ih]

theorem find_eq_some_key {k : K} {m : map K V} {e : K × V} (h : find k m = some e) :
    e.1 = k ∧ e ∈ m := by
  induction m with
  | nil => simp [find] at h
  | cons x rest ih =>
    by_cases hx : x.1 = k
    · simp [find, hx] at h
      subst h
      exact ⟨hx, List.mem_cons_self _ _⟩
    · simp [find, hx] at h
      exact ⟨(ih h).1, List.mem_cons_of_mem _ (ih h).2⟩

theorem find_insert_self (k : K) (v : V) (m : map K V) (h : find k m = none) :
    find k (insert (k, v) m) = some (k, v) := by
  induction m with
  | nil => simp [insert, find]
  | cons x rest ih =>
    have hx : x.1 ≠ k := by
      intro hx
      simp [find, hx] at h
    have hrest : find k rest = none := by
      simpa [find, hx] using h
    rcases lt_trichotomy k x.1 with hlt | heq | hgt
    · simp [insert, hlt, find]
    · exact absurd heq.symm hx
    · simp [insert, not_lt_of_gt hgt, hgt, find, hx, ih hrest]

theorem find_insert_ne (k k' : K) (v : V) (m : map K V) (h : k' ≠ k) :
    find k' (insert (k, v) m) = find k' m := by
  induction m with
  | nil => simp [insert, find, h.symm]
  | cons x rest ih =>
    simp only [insert]
    split_ifs with h1 h2
    · simp [find, h.symm]
    · simp only [find, ih]
    · rfl

theorem mem_erase_iff (k : K) (m : map K V) (e : K × V) :
    e ∈ erase k m ↔ e ∈ m ∧ e.1 ≠ k := by
  induction m with
  | nil => simp [erase]
  | cons x rest ih =>
    simp only [erase]
    split_ifs with hx
    · rw [ih, List.mem_cons]
      constructor
      · rintro ⟨h1, h2⟩
        exact ⟨Or.inr h1, h2⟩
      · rintro ⟨h1 | h1, h2⟩
        · exact absurd (h1 ▸ hx) h2
        · exact ⟨h1, h2⟩
    · rw [List.mem_cons, List.mem_cons, ih]
      constructor
      · rintro (h1 | ⟨h1, h2⟩)
        · exact ⟨Or.inl h1, h1 ▸ hx⟩
        · exact ⟨Or.inr h1, h2⟩
      · rintro ⟨h1 | h1, h2⟩
        · exact Or.inl h1
        · exact Or.inr ⟨h1, h2⟩

theorem find_erase_self (k : K) (m : map K V) : find k (erase k m) = none := by
  rw [find_eq_none_iff]
  intro e he
  exact ((mem_erase_iff k m e).1 he).2

theorem find_erase_ne (k k' : K) (m : map K V) (h : k' ≠ k) :
    find k' (erase k m) = find k' m := by
  induction m with
  | nil => rfl
  | cons x rest ih =>
    simp only [erase]
    split_ifs with hx
    · have hx' : x.1 ≠ k' := by
        rw [hx]
        exact h.symm
      simp only [find, if_neg hx', ih]
    · simp only [find, ih]

theorem erase_of_find_none (k : K) (m : map K V) (h : find k m = none) : erase k m = m := by
  induction m with
  | nil => rfl
  | cons x rest ih =>
    have hx : x.1 ≠ k := by
      intro hx
      simp [find, hx] at h
    have hrest : find k rest = none := by
      simpa [find, hx] using h
    simp only [erase, if_neg hx, ih hrest]

end map
end detail
end cls

/-! ## The constructor table -/

namespace cls
namespace detail
namespace ObjFactory

variable {BaseType IDType CtorArgs : Type} [LinearOrder IDType]

theorem addType_of_none {T : ObjFactory BaseType IDType CtorArgs} {k : IDType}
    (c : Creator BaseType CtorArgs) (h : map.find k T.creators_map = none) :
    addType k c T = (true, ⟨map.insert (k, c) T.creators_map⟩) := by
  simp [addType, h]

theorem addType_of_isSome {T : ObjFactory BaseType IDType CtorArgs} {k : IDType}
    (c : Creator BaseType CtorArgs) (h : (map.find k T.creators_map).isSome = true) :
    addType k c T = (false, T) := by
  have h' : (map.find k T.creators_map).isNone = false := by
    cases hf : map.find k T.creators_map with
    | none => simp [hf] at h
    | some e => rfl
  simp [addType, h']

theorem removeType_of_isSome {T : ObjFactory BaseType IDType CtorArgs} {k : IDType}
    (h : (map.find k T.creators_map).isSome = true) :
    removeType k T = (true, ⟨map.erase k T.creators_map⟩) := by
  simp [removeType, h]

theorem removeType_of_none {T : ObjFactory BaseType IDType CtorArgs} {k : IDType}
    (h : map.find k T.creators_map = none) :
    removeType k T = (false, T) := by
  simp [removeType, h]

theorem create_of_some {T : ObjFactory BaseType IDType CtorArgs} {k : IDType}
    {e : IDType × Creator BaseType CtorArgs} (args : CtorArgs)
    (h : map.find k T.creators_map = some e) :
    create k args T = (e.2 args, T) := by
  simp [create, h]

theorem create_of_none {T : ObjFactory BaseType IDType CtorArgs} {k : IDType}
    (args : CtorArgs) (h : map.find k T.creators_map = none) :
    create k args T = (none, T) := by
  simp [create, h]

theorem find_removeType_self (T : ObjFactory BaseType IDType CtorArgs) (k : IDType) :
    map.find k (removeType k T).2.creators_map = none := by
  cases hf : map.find k T.creators_map with
  | none => rw [removeType_of_none hf, hf]
  | some e =>
    have hs : (map.find k T.creators_map).isSome = true := by simp [hf]
    rw [removeType_of_isSome hs]
    exact map.find_erase_self k _

/-- C1: `addType(k, c)` for an identifier `k` with no entry in the table `T` returns true; in the
resulting table `k` is bound to `c`, and every identifier other than `k` has the binding, or the
absence of binding, it had in `T`. -/
theorem addType_fresh (T : ObjFactory BaseType IDType CtorArgs) (k : IDType)
    (c : Creator BaseType CtorArgs) (h : map.find k T.creators_map = none) :
    (addType k c T).1 = true ∧
    map.find k (addType k c T).2.creators_map = some (k, c) ∧
    ∀ k' : IDType, k' ≠ k →
      map.find k' (addType k c T).2.creators_map = map.find k' T.creators_map := by
  rw [addType_of_none c h]
  exact ⟨rfl, map.find_insert_self k c _ h, fun k' hk => map.find_insert_ne k k' c _ hk⟩

theorem addType_fresh_witness :
    map.find "Square" Scenario.circles.creators_map = none ∧
    (addType "Square" (FactoryCreator Scenario.Shape.Square) Scenario.circles).1 = true ∧
    map.find "Square"
        (addType "Square" (FactoryCreator Scenario.Shape.Square) Scenario.circles).2.creators_map
      = some ("Square", FactoryCreator Scenario.Shape.Square) ∧
    map.find "Circle"
        (addType "Square" (FactoryCreator Scenario.Shape.Square) Scenario.circles).2.creators_map
      = map.find "Circle" Scenario.circles.creators_map :=
  have h0 : map.find "Square" Scenario.circles.creators_map = none := by
    simp [map.find, Scenario.circles]
  have h := addType_fresh Scenario.circles "Square" (FactoryCreator Scenario.Shape.Square) h0
  ⟨h0, h.1, h.2.1, h.2.2 "Circle" (by decide)⟩

/-- C2: `addType(k, c)` for an identifier `k` that has an entry in the table `T` returns false
and the resulting table is `T` itself: nothing is overwritten. -/
theorem addType_registered (T : ObjFactory BaseType IDType CtorArgs) (k : IDType)
    (c : Creator BaseType CtorArgs) (h : (map.find k T.creators_map).isSome = true) :
    (addType k c T).1 = false ∧ (addType k c T).2 = T := by
  rw [addType_of_isSome c h]
  exact ⟨rfl, rfl⟩

theorem addType_registered_witness :
    (map.find "Circle" Scenario.circles.creators_map).isSome = true ∧
    (addType "Circle" (FactoryCreator Scenario.Shape.Square) Scenario.circles).1 = false ∧
    (addType "Circle" (FactoryCreator Scenario.Shape.Square) Scenario.circles).2
      = Scenario.circles :=
  have h0 : (map.find "Circle" Scenario.circles.creators_map).isSome = true := by
    simp [map.find, Scenario.circles]
  ⟨h0, addType_registered Scenario.circles "Circle" (FactoryCreator Scenario.Shape.Square) h0⟩

/-- C3: `create(k, args)` is the lookup: when `k` is bound to the creator `c` in the table `T`
it returns `c(args)`, when `k` has no entry it returns the empty handle, and in both cases the
table after the call is `T`. -/
theorem create_lookup (T : ObjFactory BaseType IDType CtorArgs) (k : IDType) (args : CtorArgs) :
    (∀ c : Creator BaseType CtorArgs, map.find k T.creators_map = some (k, c) →
      create k args T = (c args, T)) ∧
    (map.find k T.creators_map = none → create k args T = (none, T)) ∧
    (create k args T).2 = T := by
  refine ⟨fun c h => create_of_some args h, fun h => create_of_none args h, ?_⟩
  cases hf : map.find k T.creators_map with
  | none => rw [create_of_none args hf]
  | some e => rw [create_of_some args hf]

theorem create_lookup_witness :
    create "Circle" [3] Scenario.circles = (some (Scenario.Shape.Circle [3]), Scenario.circles) ∧
    create "Square" [3] Scenario.circles = (none, Scenario.circles) :=
  have hit : map.find "Circle" Scenario.circles.creators_map
      = some ("Circle", FactoryCreator Scenario.Shape.Circle) := by
    simp [map.find, Scenario.circles]
  have miss : map.find "Square" Scenario.circles.creators_map = none := by
    simp [map.find, Scenario.circles]
  ⟨(create_lookup Scenario.circles "Circle" [3]).1 _ hit,
    (create_lookup Scenario.circles "Square" [3]).2.1 miss⟩

/-- C4: `removeType(k)` returns true exactly when `k` has an entry in the table `T`; after the
call `k` has no entry, every identifier other than `k` has the binding it had in `T`, and when
`k` was absent the table is unchanged. -/
theorem removeType_spec (T : ObjFactory BaseType IDType CtorArgs) (k : IDType) :
    ((removeType k T).1 = true ↔ (map.find k T.creators_map).isSome = true) ∧
    map.find k (removeType k T).2.creators_map = none ∧
    (∀ k' : IDType, k' ≠ k →
      map.find k' (removeType k T).2.creators_map = map.find k' T.creators_map) ∧
    (map.find k T.creators_map = none → (removeType k T).2 = T) := by
  cases hf : map.find k T.creators_map with
  | none =>
    rw [removeType_of_none hf]
    simp [hf]
  | some e =>
    have hs : (map.find k T.creators_map).isSome = true := by simp [hf]
    rw [removeType_of_isSome hs]
    refine ⟨by simp, map.find_erase_self k _, fun k' hk => map.find_erase_ne k k' _ hk, ?_⟩
    intro h
    cases h

theorem removeType_spec_witness :
    (removeType "Circle" Scenario.circles).1 = true ∧
    map.find "Circle" (removeType "Circle" Scenario.circles).2.creators_map = none ∧
    (removeType "Square" Scenario.circles).2 = Scenario.circles :=
  have hit : (map.find "Circle" Scenario.circles.creators_map).isSome = true := by
    simp [map.find, Scenario.circles]
  have miss : map.find "Square" Scenario.circles.creators_map = none := by
    simp [map.find, Scenario.circles]
  ⟨(removeType_spec Scenario.circles "Circle").1.2 hit,
    (removeType_spec Scenario.circles "Circle").2.1,
    (removeType_spec Scenario.circles "Square").2.2.2 miss⟩

/-- C5: first registration wins: when `addType(k, c1)` returns true on the table `T`, a following
`addType(k, c2)` returns false and the `create(k, args)` after it returns `c1(args)`. -/
theorem addType_first_wins (T : ObjFactory BaseType IDType CtorArgs) (k : IDType)
    (c1 c2 : Creator BaseType CtorArgs) (args : CtorArgs)
    (h : (addType k c1 T).1 = true) :
    (addType k c2 (addType k c1 T).2).1 = false ∧
    (create k args (addType k c2 (addType k c1 T).2).2).1 = c1 args := by
  have hnone : map.find k T.creators_map = none := by
    cases hf : map.find k T.creators_map with
    | none => rfl
    | some e =>
      have hs : (map.find k T.creators_map).isSome = true := by simp [hf]
      rw [addType_of_isSome c1 hs] at h
      cases h
  have hfind : map.find k (addType k c1 T).2.creators_map = some (k, c1) := by
    rw [addType_of_none c1 hnone]
    exact map.find_insert_self k c1 _ hnone
  have hs : (map.find k (addType k c1 T).2.creators_map).isSome = true := by simp [hfind]
  rw [addType_of_isSome c2 hs, create_of_some args hfind]
  exact ⟨rfl, rfl⟩

theorem addType_first_wins_witness :
    (addType "Square" (FactoryCreator Scenario.Shape.Square) Scenario.circles).1 = true ∧
    (addType "Square" (FactoryCreator Scenario.Shape.Circle)
      (addType "Square" (FactoryCreator Scenario.Shape.Square) Scenario.circles).2).1 = false ∧
    (create "Square" [3]
      (addType "Square" (FactoryCreator Scenario.Shape.Circle)
        (addType "Square" (FactoryCreator Scenario.Shape.Square) Scenario.circles).2).2).1
      = FactoryCreator Scenario.Shape.Square [3] :=
  have h0 : (addType "Square" (FactoryCreator Scenario.Shape.Square) Scenario.circles).1
      = true := by
    simp [addType, map.find, Scenario.circles]
  ⟨h0, addType_first_wins Scenario.circles "Square" (FactoryCreator Scenario.Shape.Square)
    (FactoryCreator Scenario.Shape.Circle) [3] h0⟩

/-- C7: unregister then miss: when `removeType(k)` returns true on the table `T`, a following
`create(k, args)` returns the empty handle and a following `removeType(k)` returns false. -/
theorem removeType_then_miss (T : ObjFactory BaseType IDType CtorArgs) (k : IDType)
    (args : CtorArgs) (_h : (removeType k T).1 = true) :
    (create k args (removeType k T).2).1 = none ∧
    (removeType k (removeType k T).2).1 = false ∧
    (removeType k (create k args (removeType k T).2).2).1 = false := by
  have hnone : map.find k (removeType k T).2.creators_map = none := find_removeType_self T k
  rw [create_of_none args hnone, removeType_of_none hnone]
  exact ⟨rfl, rfl, rfl⟩

theorem removeType_then_miss_witness :
    (removeType "Circle" Scenario.circles).1 = true ∧
    (create "Circle" [3] (removeType "Circle" Scenario.circles).2).1 = none ∧
    (removeType "Circle" (removeType "Circle" Scenario.circles).2).1 = false ∧
    (removeType "Circle"
      (create "Circle" [3] (removeType "Circle" Scenario.circles).2).2).1 = false :=
  have h0 : (removeType "Circle" Scenario.circles).1 = true := by
    simp [removeType, map.find, Scenario.circles]
  ⟨h0, removeType_then_miss Scenario.circles "Circle" [3] h0⟩

end ObjFactory
end detail
end cls

/-! ## Key order and key uniqueness -/

namespace cls
namespace detail
namespace map

variable {K V : Type} [LinearOrder K]

theorem mem_insert {e y : K × V} {m : map K V} (h : y ∈ insert e m) : y = e ∨ y ∈ m := by
  induction m with
  | nil =>
    simp only [insert, List.mem_singleton] at h
    exact Or.inl h
  | cons x rest ih =>
    simp only [insert] at h
    split_ifs at h with h1 h2
    · rcases List.mem_cons.1 h with h | h
      · exact Or.inl h
      · exact Or.inr h
    · rcases List.mem_cons.1 h with h | h
      · exact Or.inr (h ▸ List.mem_cons_self _ _)
      · rcases ih h with h | h
        · exact Or.inl h
        · exact Or.inr (List.mem_cons_of_mem _ h)
    · exact Or.inr h

theorem ordered_insert (e : K × V) {m : map K V} (hm : Ordered m) : Ordered (insert e m) := by
  induction m with
  | nil => simp [insert, Ordered]
  | cons x rest ih =>
    have hx : ∀ y ∈ rest, x.1 < y.1 := (List.pairwise_cons.1 hm).1
    have hrest : Ordered rest := (List.pairwise_cons.1 hm).2
    simp only [insert]
    split_ifs with h1 h2
    · refine List.pairwise_cons.2 ⟨?_, hm⟩
      intro y hy
      rcases List.mem_cons.1 hy with hy | hy
      · rw [hy]
        exact h1
      · exact lt_trans h1 (hx y hy)
    · refine List.pairwise_cons.2 ⟨?_, ih hrest⟩
      intro y hy
      rcases mem_insert hy with hy | hy
      · rw [hy]
        exact h2
      · exact hx y hy
    · exact hm

theorem ordered_erase (k : K) {m : map K V} (hm : Ordered m) : Ordered (erase k m) := by
  induction m with
  | nil => simp [erase, Ordered]
  | cons x rest ih =>
    have hx : ∀ y ∈ rest, x.1 < y.1 := (List.pairwise_cons.1 hm).1
    have hrest : Ordered rest := (List.pairwise_cons.1 hm).2
    simp only [erase]
    split_ifs with h1
    · exact ih hrest
    · refine List.pairwise_cons.2 ⟨?_, ih hrest⟩
      intro y hy
      exact hx y ((mem_erase_iff k rest y).1 hy).1

theorem count_eq_zero_of_forall_ne (k : K) (m : map K V) (h : ∀ e ∈ m, e.1 ≠ k) :
    count k m = 0 := by
  unfold count
  rw [List.length_eq_zero, List.filter_eq_nil_iff]
  intro e he
  simpa using h e he

/-- The sequence type itself does not rule out two entries under one key. -/
theorem count_of_repeated_key : count 1 ([(1, true), (1, false)] : map Nat Bool) = 2 := by
  decide

theorem count_le_one_of_ordered (k : K) {m : map K V} (hm : Ordered m) : count k m ≤ 1 := by
  induction m with
  | nil => simp [count]
  | cons x rest ih =>
    have hx : ∀ y ∈ rest, x.1 < y.1 := (List.pairwise_cons.1 hm).1
    have hrest : Ordered rest := (List.pairwise_cons.1 hm).2
    by_cases hk : x.1 = k
    · have h0 : count k rest = 0 := by
        apply count_eq_zero_of_forall_ne
        intro e he heq
        have hlt := hx e he
        rw [hk, heq] at hlt
        exact lt_irrefl _ hlt
      have hc : count k (x :: rest) = count k rest + 1 := by
        simp [count, List.filter_cons, hk]
      rw [hc, h0]
    · have hc : count k (x :: rest) = count k rest := by
        simp [count, List.filter_cons, hk]
      rw [hc]
      exact ih hrest

end map

namespace ObjFactory

variable {BaseType IDType CtorArgs : Type} [LinearOrder IDType]

theorem ordered_exec (c : Call BaseType IDType CtorArgs)
    {T : ObjFactory BaseType IDType CtorArgs} (hT : map.Ordered T.creators_map) :
    map.Ordered (c.exec T).creators_map := by
  cases c with
  | addType ID creator =>
    simp only [Call.exec, addType]
    split_ifs
    · exact map.ordered_insert _ hT
    · exact hT
  | removeType ID =>
    simp only [Call.exec, removeType]
    split_ifs
    · exact map.ordered_erase _ hT
    · exact hT
  | create ID args =>
    simp only [Call.exec, create]
    split <;> exact hT

theorem ordered_run (calls : List (Call BaseType IDType CtorArgs)) :
    ∀ T : ObjFactory BaseType IDType CtorArgs, map.Ordered T.creators_map →
      map.Ordered (run calls T).creators_map := by
  induction calls with
  | nil =>
    intro T hT
    exact hT
  | cons c rest ih =>
    intro T hT
    exact ih (c.exec T) (ordered_exec c hT)

/-- C10: key uniqueness: in every table reached from the empty table by a sequence of `addType`,
`removeType` and `create` calls, each identifier has at most one entry. -/
theorem key_uniqueness (calls : List (Call BaseType IDType CtorArgs)) (k : IDType) :
    map.count k (run calls (empty : ObjFactory BaseType IDType CtorArgs)).creators_map ≤ 1 :=
  map.count_le_one_of_ordered k (ordered_run calls empty List.Pairwise.nil)

end ObjFactory
end detail
end cls

/-! ## The facade -/

namespace cls
namespace detail

variable {BaseType IDType Ty Val R : Type} [DecidableEq Ty]

theorem onInstance_fst (A : List Ty)
    (member : ObjFactory BaseType IDType (List Val) → R × ObjFactory BaseType IDType (List Val))
    (s : Instances BaseType IDType Ty Val) :
    (onInstance A member s).1 = (member (s A)).1 := rfl

theorem onInstance_snd_same (A : List Ty)
    (member : ObjFactory BaseType IDType (List Val) → R × ObjFactory BaseType IDType (List Val))
    (s : Instances BaseType IDType Ty Val) :
    (onInstance A member s).2 A = (member (s A)).2 := by
  simp [onInstance]

theorem onInstance_snd_other {A B : List Ty} (h : A ≠ B)
    (member : ObjFactory BaseType IDType (List Val) → R × ObjFactory BaseType IDType (List Val))
    (s : Instances BaseType IDType Ty Val) :
    (onInstance A member s).2 B = s B := by
  simp [onInstance, Function.update_noteq (Ne.symm h)]

theorem onInstance_snd_of_unchanged (A : List Ty)
    (member : ObjFactory BaseType IDType (List Val) → R × ObjFactory BaseType IDType (List Val))
    (s : Instances BaseType IDType Ty Val) (h : (member (s A)).2 = s A) :
    (onInstance A member s).2 = s := by
  simp [onInstance, h]

end detail

namespace Factory

open detail

variable {Base IDType Ty Val : Type} [LinearOrder IDType] [DecidableEq Ty]

theorem create_snd (deduce : Val → Ty) (id : IDType) (args : List Val)
    (s : Instances Base IDType Ty Val) : (create deduce id args s).2 = s := by
  apply onInstance_snd_of_unchanged
  cases hf : map.find id (s (args.map deduce)).creators_map with
  | none => rw [ObjFactory.create_of_none args hf]
  | some e => rw [ObjFactory.create_of_some args hf]

theorem addType_empty (Derived : List Val → Base) (P : List Ty) (k : IDType) :
    (addType Derived P k (Instances.empty : Instances Base IDType Ty Val)).1 = true ∧
    (addType Derived P k (Instances.empty : Instances Base IDType Ty Val)).2 P
      = ⟨[(k, FactoryCreator Derived)]⟩ := by
  have h : map.find k ((Instances.empty : Instances Base IDType Ty Val) P).creators_map
      = none := rfl
  unfold addType
  rw [onInstance_fst, onInstance_snd_same, ObjFactory.addType_of_none _ h]
  exact ⟨rfl, rfl⟩

/-- C6 (as stated): after the plain `addType<Derived>(k)`, whose pack is empty, a `create` with
one argument looks in the table of the pack `(int)` and returns the empty handle. -/
theorem roundtrip_plain_addType_counterexample :
    (addType Scenario.Shape.Circle ([] : List Scenario.Ty) "Circle" Instances.empty).1 = true ∧
    (create Scenario.deduce "Circle" [3]
      (addType Scenario.Shape.Circle ([] : List Scenario.Ty) "Circle" Instances.empty).2).1
      = none ∧
    ¬ (∀ (k : String) (Derived : List Int → Scenario.Shape) (args : List Int),
        (addType Derived ([] : List Scenario.Ty) k Instances.empty).1 = true ∧
        (create Scenario.deduce k args
          (addType Derived ([] : List Scenario.Ty) k Instances.empty).2).1
          = some (Derived args)) := by
  have hne : List.map Scenario.deduce [3] ≠ ([] : List Scenario.Ty) := by decide
  have hmiss : (create Scenario.deduce "Circle" [3]
      (addType Scenario.Shape.Circle ([] : List Scenario.Ty) "Circle" Instances.empty).2).1
      = none := by
    unfold create addType
    rw [onInstance_fst, onInstance_snd_other (Ne.symm hne)]
    rfl
  refine ⟨(addType_empty _ _ _).1, hmiss, ?_⟩
  intro h
  have h2 := (h "Circle" Scenario.Shape.Circle [3]).2
  rw [hmiss] at h2
  cases h2

/-- C6 (amended): from the empty registry, `addType<Derived, CtorArgs...>(k)` with `CtorArgs...`
the pack that `create` deduces from `args` (the empty pack, so the plain `addType<Derived>(k)`,
exactly for the empty argument list) returns true, and the following `create(k, args...)` returns
a non-empty handle to the `Derived` instance constructed from `args`. -/
theorem roundtrip_matching_pack (deduce : Val → Ty) (k : IDType) (Derived : List Val → Base)
    (args : List Val) :
    (addType Derived (args.map deduce) k (Instances.empty : Instances Base IDType Ty Val)).1
      = true ∧
    (create deduce k args
      (addType Derived (args.map deduce) k (Instances.empty : Instances Base IDType Ty Val)).2).1
      = some (Derived args) := by
  refine ⟨(addType_empty _ _ _).1, ?_⟩
  unfold create
  rw [onInstance_fst, (addType_empty Derived (args.map deduce) k).2]
  have hf : map.find k
      (⟨[(k, FactoryCreator Derived)]⟩ : ObjFactory Base IDType (List Val)).creators_map
      = some (k, FactoryCreator Derived) := by
    simp [map.find]
  rw [ObjFactory.create_of_some args hf]
  rfl

theorem find_addType_isSome (T : ObjFactory Base IDType (List Val)) (k : IDType)
    (c : ObjFactory.Creator Base (List Val)) :
    (map.find k (ObjFactory.addType k c T).2.creators_map).isSome = true := by
  cases hf : map.find k T.creators_map with
  | none =>
    rw [ObjFactory.addType_of_none c hf, map.find_insert_self k c _ hf]
    rfl
  | some e =>
    have hs : (map.find k T.creators_map).isSome = true := by simp [hf]
    rw [ObjFactory.addType_of_isSome c hs]
    exact hs

/-- C8: isolation across signatures: for two distinct packs `A` and `B`, an `addType` (with any
creator) or a `removeType` on the table for `A` leaves the table for `B` as it was, whatever
the table for `B` holds; after the `addType` the identifier `k` is registered in the table for
`A`, and when `k` has no entry in the table for `B` it is a miss there: `create` with arguments
of pack `B` returns the empty handle and `removeType` on `B` returns false. -/
theorem isolation_across_signatures (deduce : Val → Ty) (s : Instances Base IDType Ty Val)
    (A B : List Ty) (k : IDType) (c : ObjFactory.Creator Base (List Val)) (args : List Val)
    (hAB : A ≠ B) :
    (onInstance A (ObjFactory.addType k c) s).2 B = s B ∧
    (removeType A k s).2 B = s B ∧
    (map.find k ((onInstance A (ObjFactory.addType k c) s).2 A).creators_map).isSome = true ∧
    (args.map deduce = B → map.find k (s B).creators_map = none →
      (create deduce k args (onInstance A (ObjFactory.addType k c) s).2).1 = none ∧
      (removeType B k (onInstance A (ObjFactory.addType k c) s).2).1 = false) := by
  have h1 : (onInstance A (ObjFactory.addType k c) s).2 B = s B :=
    onInstance_snd_other hAB _ s
  refine ⟨h1, onInstance_snd_other hAB _ s, ?_, ?_⟩
  · rw [onInstance_snd_same]
    exact find_addType_isSome (s A) k c
  · intro hargs hB
    constructor
    · unfold create
      rw [onInstance_fst, hargs, h1, ObjFactory.create_of_none args hB]
    · unfold removeType
      rw [onInstance_fst, h1, ObjFactory.removeType_of_none hB]

theorem isolation_across_signatures_witness :
    [Scenario.Ty.int] ≠ [Scenario.Ty.int, Scenario.Ty.int] ∧
    (map.find "Circle"
      ((addType Scenario.Shape.Square [Scenario.Ty.int, Scenario.Ty.int] "Circle"
        (Instances.empty : Instances Scenario.Shape String Scenario.Ty Int)).2
        [Scenario.Ty.int, Scenario.Ty.int]).creators_map).isSome = true ∧
    (removeType [Scenario.Ty.int] "Circle"
      (addType Scenario.Shape.Square [Scenario.Ty.int, Scenario.Ty.int] "Circle"
        (Instances.empty : Instances Scenario.Shape String Scenario.Ty Int)).2).2
        [Scenario.Ty.int, Scenario.Ty.int]
      = (addType Scenario.Shape.Square [Scenario.Ty.int, Scenario.Ty.int] "Circle"
        (Instances.empty : Instances Scenario.Shape String Scenario.Ty Int)).2
        [Scenario.Ty.int, Scenario.Ty.int] ∧
    (addType Scenario.Shape.Circle [Scenario.Ty.int] "Circle"
      (addType Scenario.Shape.Square [Scenario.Ty.int, Scenario.Ty.int] "Circle"
        (Instances.empty : Instances Scenario.Shape String Scenario.Ty Int)).2).2
        [Scenario.Ty.int, Scenario.Ty.int]
      = (addType Scenario.Shape.Square [Scenario.Ty.int, Scenario.Ty.int] "Circle"
        (Instances.empty : Instances Scenario.Shape String Scenario.Ty Int)).2
        [Scenario.Ty.int, Scenario.Ty.int] ∧
    (create Scenario.deduce "Circle" [3, 4]
      (addType Scenario.Shape.Circle [Scenario.Ty.int] "Circle"
        (Instances.empty : Instances Scenario.Shape String Scenario.Ty Int)).2).1 = none ∧
    (removeType [Scenario.Ty.int, Scenario.Ty.int] "Circle"
      (addType Scenario.Shape.Circle [Scenario.Ty.int] "Circle"
        (Instances.empty : Instances Scenario.Shape String Scenario.Ty Int)).2).1 = false :=
  have hne : [Scenario.Ty.int] ≠ [Scenario.Ty.int, Scenario.Ty.int] := by decide
  have hin : (map.find "Circle"
      ((addType Scenario.Shape.Square [Scenario.Ty.int, Scenario.Ty.int] "Circle"
        (Instances.empty : Instances Scenario.Shape String Scenario.Ty Int)).2
        [Scenario.Ty.int, Scenario.Ty.int]).creators_map).isSome = true := by
    rw [(addType_empty Scenario.Shape.Square [Scenario.Ty.int, Scenario.Ty.int] "Circle").2]
    simp [map.find]
  have hfull := isolation_across_signatures Scenario.deduce
    (addType Scenario.Shape.Square [Scenario.Ty.int, Scenario.Ty.int] "Circle"
      (Instances.empty : Instances Scenario.Shape String Scenario.Ty Int)).2
    [Scenario.Ty.int] [Scenario.Ty.int, Scenario.Ty.int] "Circle"
    (FactoryCreator Scenario.Shape.Circle) [3, 4] hne
  have hempty := isolation_across_signatures Scenario.deduce
    (Instances.empty : Instances Scenario.Shape String Scenario.Ty Int)
    [Scenario.Ty.int] [Scenario.Ty.int, Scenario.Ty.int] "Circle"
    (FactoryCreator Scenario.Shape.Circle) [3, 4] hne
  have hmiss := hempty.2.2.2 (by decide) rfl
  ⟨hne, hin, hfull.2.1, hfull.1, hmiss.1, hmiss.2⟩

/-- C9: the zero-argument scenario: from the empty registry, `addType<D>(k)` returns true, then
`create(k)` returns a non-empty handle to a `D` instance, and `create(k')` for an identifier
`k'` other than `k` returns the empty handle. -/
theorem zero_argument_scenario (deduce : Val → Ty) (k k' : IDType) (D : List Val → Base)
    (h : k' ≠ k) :
    (addType D ([] : List Ty) k (Instances.empty : Instances Base IDType Ty Val)).1 = true ∧
    (create deduce k []
      (addType D ([] : List Ty) k (Instances.empty : Instances Base IDType Ty Val)).2).1
      = some (D []) ∧
    (create deduce k' []
      (create deduce k []
        (addType D ([] : List Ty) k (Instances.empty : Instances Base IDType Ty Val)).2).2).1
      = none := by
  refine ⟨(addType_empty _ _ _).1, ?_, ?_⟩
  · unfold create
    rw [onInstance_fst]
    have hm : List.map deduce ([] : List Val) = [] := rfl
    rw [hm, (addType_empty D [] k).2]
    have hf : map.find k
        (⟨[(k, FactoryCreator D)]⟩ : ObjFactory Base IDType (List Val)).creators_map
        = some (k, FactoryCreator D) := by
      simp [map.find]
    rw [ObjFactory.create_of_some [] hf]
    rfl
  · rw [create_snd]
    unfold create
    rw [onInstance_fst]
    have hm : List.map deduce ([] : List Val) = [] := rfl
    rw [hm, (addType_empty D [] k).2]
    have hf : map.find k'
        (⟨[(k, FactoryCreator D)]⟩ : ObjFactory Base IDType (List Val)).creators_map
        = none := by
      simp [map.find, h.symm]
    rw [ObjFactory.create_of_none [] hf]

theorem zero_argument_scenario_witness :
    "Square" ≠ "Circle" ∧
    (addType Scenario.Shape.Circle ([] : List Scenario.Ty) "Circle" Instances.empty).1 = true ∧
    (create Scenario.deduce "Circle" []
      (addType Scenario.Shape.Circle ([] : List Scenario.Ty) "Circle" Instances.empty).2).1
      = some (Scenario.Shape.Circle []) ∧
    (create Scenario.deduce "Square" []
      (create Scenario.deduce "Circle" []
        (addType Scenario.Shape.Circle ([] : List Scenario.Ty) "Circle"
          Instances.empty).2).2).1
      = none :=
  ⟨by decide, zero_argument_scenario Scenario.deduce "Circle" "Square" Scenario.Shape.Circle
    (by decide)⟩

end Factory
end cls

/-! ## Order of registration, typed registration, re-registration -/

namespace cls
namespace detail
namespace map

variable {K V : Type} [LinearOrder K]

theorem find_cons_none {k : K} {x : K × V} {rest : map K V} (h : find k (x :: rest) = none) :
    x.1 ≠ k ∧ find k rest = none := by
  have hx : x.1 ≠ k := by
    intro hx
    simp [find, hx] at h
  exact ⟨hx, by simpa [find, hx] using h⟩

theorem insert_comm_of_lt (k1 k2 : K) (v1 v2 : V) (m : map K V) (h12 : k1 < k2)
    (h1 : find k1 m = none) (h2 : find k2 m = none) :
    insert (k1, v1) (insert (k2, v2) m) = insert (k2, v2) (insert (k1, v1) m) := by
  induction m with
  | nil => simp [insert, h12, not_lt_of_gt h12]
  | cons x rest ih =>
    obtain ⟨hx1, hr1⟩ := find_cons_none h1
    obtain ⟨hx2, hr2⟩ := find_cons_none h2
    rcases lt_trichotomy x.1 k1 with hlt | heq | hgt
    · have hlt2 : x.1 < k2 := lt_trans hlt h12
      simp [insert, hlt, hlt2, not_lt_of_gt hlt, not_lt_of_gt hlt2, ih hr1 hr2]
    · exact absurd heq hx1
    · rcases lt_trichotomy x.1 k2 with hlt2 | heq2 | hgt2
      · simp [insert, hgt, hlt2, not_lt_of_gt hgt, not_lt_of_gt hlt2, h12, not_lt_of_gt h12]
      · exact absurd heq2 hx2
      · simp [insert, hgt, hgt2, not_lt_of_gt hgt, not_lt_of_gt hgt2, h12, not_lt_of_gt h12]

theorem insert_comm (k1 k2 : K) (v1 v2 : V) (m : map K V) (h : k1 ≠ k2)
    (h1 : find k1 m = none) (h2 : find k2 m = none) :
    insert (k1, v1) (insert (k2, v2) m) = insert (k2, v2) (insert (k1, v1) m) := by
  rcases lt_or_gt_of_ne h with hlt | hgt
  · exact insert_comm_of_lt k1 k2 v1 v2 m hlt h1 h2
  · exact (insert_comm_of_lt k2 k1 v2 v1 m hgt h2 h1).symm

end map
end detail
end cls

namespace cls
namespace detail
namespace ObjFactory

variable {BaseType IDType CtorArgs : Type} [LinearOrder IDType]

theorem addType_fst_of_find_eq {T T' : ObjFactory BaseType IDType CtorArgs} {k : IDType}
    (c : Creator BaseType CtorArgs)
    (h : map.find k T'.creators_map = map.find k T.creators_map) :
    (addType k c T').1 = (addType k c T).1 := by
  simp only [addType, h]
  split_ifs <;> rfl

theorem find_addType_ne (T : ObjFactory BaseType IDType CtorArgs) (k k' : IDType)
    (c : Creator BaseType CtorArgs) (h : k' ≠ k) :
    map.find k' (addType k c T).2.creators_map = map.find k' T.creators_map := by
  simp only [addType]
  split_ifs
  · exact map.find_insert_ne k k' c _ h
  · rfl

theorem find_addType_self_of_none (T : ObjFactory BaseType IDType CtorArgs) (k : IDType)
    (c : Creator BaseType CtorArgs) (h : map.find k T.creators_map = none) :
    map.find k (addType k c T).2.creators_map = some (k, c) := by
  rw [addType_of_none c h]
  exact map.find_insert_self k c _ h

theorem isSome_of_ne_none {α : Type} {o : Option α} (h : o ≠ none) : o.isSome = true := by
  cases o with
  | none => exact absurd rfl h
  | some a => rfl

/-- C12: insertion order is irrelevant for distinct keys: performing `addType(k1, c1)` then
`addType(k2, c2)` on the table `T` gives each call the return value it has in the other order,
and the same final table. -/
theorem addType_order_irrelevant (T : ObjFactory BaseType IDType CtorArgs) (k1 k2 : IDType)
    (c1 c2 : Creator BaseType CtorArgs) (h : k1 ≠ k2) :
    (addType k1 c1 T).1 = (addType k1 c1 (addType k2 c2 T).2).1 ∧
    (addType k2 c2 (addType k1 c1 T).2).1 = (addType k2 c2 T).1 ∧
    (addType k2 c2 (addType k1 c1 T).2).2 = (addType k1 c1 (addType k2 c2 T).2).2 := by
  have e1 : map.find k1 (addType k2 c2 T).2.creators_map = map.find k1 T.creators_map :=
    find_addType_ne T k2 k1 c2 h
  have e2 : map.find k2 (addType k1 c1 T).2.creators_map = map.find k2 T.creators_map :=
    find_addType_ne T k1 k2 c1 (Ne.symm h)
  refine ⟨(addType_fst_of_find_eq c1 e1).symm, addType_fst_of_find_eq c2 e2, ?_⟩
  by_cases h1 : map.find k1 T.creators_map = none
  · by_cases h2 : map.find k2 T.creators_map = none
    · rw [addType_of_none c2 (e2.trans h2), addType_of_none c1 (e1.trans h1)]
      rw [addType_of_none c1 h1, addType_of_none c2 h2]
      exact congrArg ObjFactory.mk (map.insert_comm k1 k2 c1 c2 _ h h1 h2).symm
    · have s2 : (map.find k2 T.creators_map).isSome = true := isSome_of_ne_none h2
      have s2' : (map.find k2 (addType k1 c1 T).2.creators_map).isSome = true := by
        rw [e2]
        exact s2
      rw [addType_of_isSome c2 s2', addType_of_isSome c2 s2]
  · have s1 : (map.find k1 T.creators_map).isSome = true := isSome_of_ne_none h1
    have s1' : (map.find k1 (addType k2 c2 T).2.creators_map).isSome = true := by
      rw [e1]
      exact s1
    rw [addType_of_isSome c1 s1', addType_of_isSome c1 s1]

theorem addType_order_irrelevant_witness :
    "Square" ≠ "Arc" ∧
    (addType "Square" (FactoryCreator Scenario.Shape.Square) Scenario.circles).1
      = (addType "Square" (FactoryCreator Scenario.Shape.Square)
          (addType "Arc" (FactoryCreator Scenario.Shape.Circle) Scenario.circles).2).1 ∧
    (addType "Arc" (FactoryCreator Scenario.Shape.Circle)
        (addType "Square" (FactoryCreator Scenario.Shape.Square) Scenario.circles).2).1
      = (addType "Arc" (FactoryCreator Scenario.Shape.Circle) Scenario.circles).1 ∧
    (addType "Arc" (FactoryCreator Scenario.Shape.Circle)
        (addType "Square" (FactoryCreator Scenario.Shape.Square) Scenario.circles).2).2
      = (addType "Square" (FactoryCreator Scenario.Shape.Square)
          (addType "Arc" (FactoryCreator Scenario.Shape.Circle) Scenario.circles).2).2 :=
  ⟨by decide, addType_order_irrelevant Scenario.circles "Square" "Arc"
    (FactoryCreator Scenario.Shape.Square) (FactoryCreator Scenario.Shape.Circle) (by decide)⟩

/-- C15: re-registration after unregistration: when `k` is bound to `c1` in the table `T`,
`removeType(k)` returns true, the following `addType(k, c2)` returns true, and the `create(k,
args)` after it returns `c2(args)`. -/
theorem reregister_after_removeType (T : ObjFactory BaseType IDType CtorArgs) (k : IDType)
    (c1 c2 : Creator BaseType CtorArgs) (args : CtorArgs)
    (h : map.find k T.creators_map = some (k, c1)) :
    (removeType k T).1 = true ∧
    (addType k c2 (removeType k T).2).1 = true ∧
    (create k args (addType k c2 (removeType k T).2).2).1 = c2 args := by
  have hs : (map.find k T.creators_map).isSome = true := by simp [h]
  have hnone : map.find k (removeType k T).2.creators_map = none := find_removeType_self T k
  have hfind := find_addType_self_of_none (removeType k T).2 k c2 hnone
  refine ⟨by rw [removeType_of_isSome hs], by rw [addType_of_none c2 hnone], ?_⟩
  rw [create_of_some args hfind]

theorem reregister_after_removeType_witness :
    map.find "Circle" Scenario.circles.creators_map
      = some ("Circle", FactoryCreator Scenario.Shape.Circle) ∧
    (removeType "Circle" Scenario.circles).1 = true ∧
    (addType "Circle" (FactoryCreator Scenario.Shape.Square)
      (removeType "Circle" Scenario.circles).2).1 = true ∧
    (create "Circle" [3]
      (addType "Circle" (FactoryCreator Scenario.Shape.Square)
        (removeType "Circle" Scenario.circles).2).2).1
      = FactoryCreator Scenario.Shape.Square [3] :=
  have h0 : map.find "Circle" Scenario.circles.creators_map
      = some ("Circle", FactoryCreator Scenario.Shape.Circle) := by
    simp [map.find, Scenario.circles]
  ⟨h0, reregister_after_removeType Scenario.circles "Circle"
    (FactoryCreator Scenario.Shape.Circle) (FactoryCreator Scenario.Shape.Square) [3] h0⟩

end ObjFactory
end detail
end cls

/-! ## Entries made by `FactoryCreator` -/

namespace cls
namespace detail
namespace ObjFactory

variable {BaseType IDType CtorArgs : Type} [LinearOrder IDType]

theorem nonempty_exec (c : TypedCall BaseType IDType CtorArgs)
    {T : ObjFactory BaseType IDType CtorArgs}
    (hT : ∀ e ∈ T.creators_map, ∀ args : CtorArgs, e.2 args ≠ none) :
    ∀ e ∈ (c.exec T).creators_map, ∀ args : CtorArgs, e.2 args ≠ none := by
  cases c with
  | addType D ID =>
    simp only [TypedCall.exec, addTypeT, addType]
    split_ifs
    · intro e he args
      rcases map.mem_insert he with h | h
      · rw [h]
        simp [FactoryCreator]
      · exact hT e h args
    · exact hT
  | removeType ID =>
    simp only [TypedCall.exec, removeType]
    split_ifs
    · intro e he args
      exact hT e ((map.mem_erase_iff ID _ e).1 he).1 args
    · exact hT

theorem nonempty_runTyped (calls : List (TypedCall BaseType IDType CtorArgs)) :
    ∀ T : ObjFactory BaseType IDType CtorArgs,
      (∀ e ∈ T.creators_map, ∀ args : CtorArgs, e.2 args ≠ none) →
      ∀ e ∈ (runTyped calls T).creators_map, ∀ args : CtorArgs, e.2 args ≠ none := by
  induction calls with
  | nil =>
    intro T hT
    exact hT
  | cons c rest ih =>
    intro T hT
    exact ih (c.exec T) (nonempty_exec c hT)

/-- C16: in every table reached from the empty table by `addType<T>(id)` and `removeType` calls
only, `create(k, args)` returns the empty handle exactly when `k` is not registered; with a
creator of the caller's own this fails: after `addType(k, c)` with a `c` that returns the empty
handle, `k` is registered and `create(k, args)` is empty. -/
theorem empty_handle_iff_miss (calls : List (TypedCall BaseType IDType CtorArgs)) (k : IDType)
    (args : CtorArgs) :
    ((create k args (runTyped calls (empty : ObjFactory BaseType IDType CtorArgs))).1 = none ↔
      map.find k (runTyped calls (empty : ObjFactory BaseType IDType CtorArgs)).creators_map
        = none) ∧
    (map.find k
        (addType k (fun _ => none) (empty : ObjFactory BaseType IDType CtorArgs)).2.creators_map
      = some (k, fun _ => none) ∧
     (create k args
        (addType k (fun _ => none) (empty : ObjFactory BaseType IDType CtorArgs)).2).1
      = none) := by
  constructor
  · constructor
    · intro hc
      cases hf : map.find k (runTyped calls (empty : ObjFactory BaseType IDType CtorArgs)).creators_map with
      | none => rfl
      | some e =>
        rw [create_of_some args hf] at hc
        have hmem := (map.find_eq_some_key hf).2
        have hne := nonempty_runTyped calls empty (by intro e he; cases he) e hmem args
        exact absurd hc hne
    · intro hf
      rw [create_of_none args hf]
  · have h0 : map.find k (empty : ObjFactory BaseType IDType CtorArgs).creators_map = none := rfl
    have hfind := find_addType_self_of_none (empty : ObjFactory BaseType IDType CtorArgs) k
      (fun _ => none) h0
    exact ⟨hfind, by rw [create_of_some args hfind]⟩

end ObjFactory

/-- C13: the typed registrations are the generic registration with the creator made by
`FactoryCreator`: `addType<T>(k)` returns what `addType(k, FactoryCreator<T, Ptr>())` returns
and leaves the same table, that creator yields on `args` a handle to `T(args...)` (so after a
successful `addType<T>(k)`, `create(k, args)` is that handle), and the facade
`addType<Derived, Args...>(k)` returns what `addType<Derived>(k)` of the table for `Args...`
returns and leaves the same registry. -/
theorem typed_registration_is_generic {BaseType IDType CtorArgs Ty Val : Type}
    [LinearOrder IDType] [DecidableEq Ty]
    (T : CtorArgs → BaseType) (k : IDType) (self : ObjFactory BaseType IDType CtorArgs)
    (args : CtorArgs) (Derived : List Val → BaseType) (Args : List Ty)
    (s : Instances BaseType IDType Ty Val) :
    ObjFactory.addTypeT T k self = ObjFactory.addType k (FactoryCreator T) self ∧
    FactoryCreator T args = some (T args) ∧
    ((ObjFactory.addTypeT T k self).1 = true →
      (ObjFactory.create k args (ObjFactory.addTypeT T k self).2).1 = some (T args)) ∧
    Factory.addType Derived Args k s = onInstance Args (ObjFactory.addTypeT Derived k) s := by
  refine ⟨rfl, rfl, ?_, rfl⟩
  intro h
  have hnone : map.find k self.creators_map = none := by
    cases hf : map.find k self.creators_map with
    | none => rfl
    | some e =>
      have hs : (map.find k self.creators_map).isSome = true := by simp [hf]
      unfold ObjFactory.addTypeT at h
      rw [ObjFactory.addType_of_isSome _ hs] at h
      cases h
  have hfind := ObjFactory.find_addType_self_of_none self k (FactoryCreator T) hnone
  unfold ObjFactory.addTypeT
  rw [ObjFactory.create_of_some args hfind]
  rfl

theorem typed_registration_is_generic_witness :
    (ObjFactory.addTypeT Scenario.Shape.Square "Square" Scenario.circles).1 = true ∧
    ObjFactory.addTypeT Scenario.Shape.Square "Square" Scenario.circles
      = ObjFactory.addType "Square" (FactoryCreator Scenario.Shape.Square) Scenario.circles ∧
    (ObjFactory.create "Square" [3]
      (ObjFactory.addTypeT Scenario.Shape.Square "Square" Scenario.circles).2).1
      = some (Scenario.Shape.Square [3]) ∧
    Factory.addType Scenario.Shape.Square [Scenario.Ty.int] "Square"
        (Instances.empty : Instances Scenario.Shape String Scenario.Ty Int)
      = onInstance [Scenario.Ty.int] (ObjFactory.addTypeT Scenario.Shape.Square "Square")
        Instances.empty :=
  have h0 : (ObjFactory.addTypeT Scenario.Shape.Square "Square" Scenario.circles).1 = true := by
    simp [ObjFactory.addTypeT, ObjFactory.addType, map.find, Scenario.circles]
  have h := typed_registration_is_generic Scenario.Shape.Square "Square" Scenario.circles [3]
    Scenario.Shape.Square [Scenario.Ty.int]
    (Instances.empty : Instances Scenario.Shape String Scenario.Ty Int)
  ⟨h0, h.1, h.2.2.1 h0, h.2.2.2⟩

end detail
end cls

/-! ## The facade's `removeType` with no pack given -/

namespace cls
namespace detail
namespace ObjFactory

variable {BaseType IDType CtorArgs : Type} [LinearOrder IDType]

theorem find_none_of_addType_true {T : ObjFactory BaseType IDType CtorArgs} {k : IDType}
    {c : Creator BaseType CtorArgs} (h : (addType k c T).1 = true) :
    map.find k T.creators_map = none := by
  cases hf : map.find k T.creators_map with
  | none => rfl
  | some e =>
    have hs : (map.find k T.creators_map).isSome = true := by simp [hf]
    rw [addType_of_isSome c hs] at h
    cases h

theorem removeType_fst_iff (T : ObjFactory BaseType IDType CtorArgs) (k : IDType) :
    (removeType k T).1 = true ↔ (map.find k T.creators_map).isSome = true := by
  cases hf : map.find k T.creators_map with
  | none =>
    rw [removeType_of_none hf]
    simp
  | some e =>
    have hs : (map.find k T.creators_map).isSome = true := by simp [hf]
    rw [removeType_of_isSome hs]
    simp

theorem find_removeType_ne (T : ObjFactory BaseType IDType CtorArgs) (k k' : IDType)
    (h : k' ≠ k) :
    map.find k' (removeType k T).2.creators_map = map.find k' T.creators_map := by
  simp only [removeType]
  split_ifs
  · exact map.find_erase_ne k k' _ h
  · rfl

end ObjFactory
end detail

namespace Factory

open detail

variable {Base IDType Ty Val : Type} [LinearOrder IDType] [DecidableEq Ty]

/-- C14: the facade's `removeType(k)` with no template argument has the empty pack: it returns
true exactly when `k` is registered in the table of the empty pack, removes that entry only, and
leaves the table of every non-empty pack as it was; an entry added by
`addType<Derived, CtorArgs...>(k)` for the non-empty pack of `args` is still found by
`create(k, args...)` after it. -/
theorem removeType_plain_is_zero_pack (deduce : Val → Ty) (s : Instances Base IDType Ty Val)
    (k : IDType) (Derived : List Val → Base) (args : List Val) (hargs : args ≠ [])
    (hadd : (addType Derived (args.map deduce) k s).1 = true) :
    ((removeType ([] : List Ty) k s).1 = true ↔
      (map.find k (s []).creators_map).isSome = true) ∧
    map.find k ((removeType ([] : List Ty) k s).2 []).creators_map = none ∧
    (∀ k' : IDType, k' ≠ k →
      map.find k' ((removeType ([] : List Ty) k s).2 []).creators_map
        = map.find k' (s []).creators_map) ∧
    (∀ P : List Ty, P ≠ [] → (removeType ([] : List Ty) k s).2 P = s P) ∧
    (create deduce k args
      (removeType ([] : List Ty) k (addType Derived (args.map deduce) k s).2).2).1
      = some (Derived args) := by
  have hP : ([] : List Ty) ≠ args.map deduce := by
    intro h
    exact hargs (List.map_eq_nil_iff.1 h.symm)
  refine ⟨?_, ?_, ?_, ?_, ?_⟩
  · unfold removeType
    rw [onInstance_fst]
    exact ObjFactory.removeType_fst_iff (s []) k
  · unfold removeType
    rw [onInstance_snd_same]
    exact ObjFactory.find_removeType_self (s []) k
  · intro k' hk
    unfold removeType
    rw [onInstance_snd_same]
    exact ObjFactory.find_removeType_ne (s []) k k' hk
  · intro P hne
    exact onInstance_snd_other (Ne.symm hne) _ s
  · have hnone : map.find k (s (args.map deduce)).creators_map = none :=
      ObjFactory.find_none_of_addType_true hadd
    have hfind : map.find k ((addType Derived (args.map deduce) k s).2
        (args.map deduce)).creators_map = some (k, FactoryCreator Derived) := by
      unfold addType
      rw [onInstance_snd_same]
      exact ObjFactory.find_addType_self_of_none _ k _ hnone
    have hkeep : (removeType ([] : List Ty) k (addType Derived (args.map deduce) k s).2).2
        (args.map deduce) = (addType Derived (args.map deduce) k s).2 (args.map deduce) :=
      onInstance_snd_other hP _ _
    unfold create
    rw [onInstance_fst, hkeep, ObjFactory.create_of_some args hfind]
    rfl

theorem removeType_plain_is_zero_pack_witness :
    ([3] : List Int) ≠ [] ∧
    (addType Scenario.Shape.Circle [Scenario.Ty.int] "Circle"
      (Instances.empty : Instances Scenario.Shape String Scenario.Ty Int)).1 = true ∧
    (removeType ([] : List Scenario.Ty) "Circle"
      (addType Scenario.Shape.Circle [Scenario.Ty.int] "Circle"
        (Instances.empty : Instances Scenario.Shape String Scenario.Ty Int)).2).1 = false ∧
    (create Scenario.deduce "Circle" [3]
      (removeType ([] : List Scenario.Ty) "Circle"
        (addType Scenario.Shape.Circle [Scenario.Ty.int] "Circle"
          (Instances.empty : Instances Scenario.Shape String Scenario.Ty Int)).2).2).1
      = some (Scenario.Shape.Circle [3]) :=
  have hadd : (addType Scenario.Shape.Circle (List.map Scenario.deduce [3]) "Circle"
      (Instances.empty : Instances Scenario.Shape String Scenario.Ty Int)).1 = true :=
    (addType_empty Scenario.Shape.Circle (List.map Scenario.deduce [3]) "Circle").1
  have h := removeType_plain_is_zero_pack Scenario.deduce
    (Instances.empty : Instances Scenario.Shape String Scenario.Ty Int) "Circle"
    Scenario.Shape.Circle [3] (by decide) hadd
  ⟨by decide, hadd, by
    unfold removeType addType
    rw [onInstance_fst, onInstance_snd_other (by decide)]
    rfl, h.2.2.2.2⟩

end Factory
end cls

/-! ## The registration macros -/

namespace cls
namespace factory_hpp

theorem append_detail_ne_cls (CLS_BEGIN : List String) : CLS_BEGIN ++ ["detail"] ≠ ["cls"] := by
  cases CLS_BEGIN with
  | nil => decide
  | cons x rest =>
    cases rest with
    | nil => simp
    | cons y rest2 => simp

theorem lookup_cls_ObjFactory (CLS_BEGIN : List String) :
    lookup CLS_BEGIN ["cls"] "ObjFactory" = none := by
  have h := append_detail_ne_cls CLS_BEGIN
  simp [lookup, declarations, h]

/-- C11 (the code at `REGISTER_TO_FACTORY(Base, Derived)`): whatever namespace `_CLS_BEGIN`
opens, the class `cls::ObjFactory<...>` that the three registration macros call `addType` on is
not declared: `ObjFactory` is declared inside `namespace detail`, and even there its three
parameters before the pack have no default, so the single argument `<BaseType>` does not fit.
No registration is made by the macros; the facade call `cls::Factory<Base>::addType<Derived>`
does name a class. -/
theorem register_macros_name_no_class (CLS_BEGIN : List String) (BaseType DerivedType : String)
    (Creator : Kind) :
    (REGISTER_TO_FACTORY BaseType DerivedType).namesClass CLS_BEGIN = false ∧
    (REGISTER_TYPE_TO_FACTORY DerivedType).namesClass CLS_BEGIN = false ∧
    (REGISTER_TO_FACTORY_WITH_CTOR BaseType DerivedType Creator).namesClass CLS_BEGIN = false ∧
    (lookup CLS_BEGIN (CLS_BEGIN ++ ["detail"]) "ObjFactory").map
      (fun d => fits d.params d.pack [Kind.type]) = some false ∧
    (facadeCall DerivedType DerivedType).namesClass ["cls"] = true := by
  have h := lookup_cls_ObjFactory CLS_BEGIN
  refine ⟨?_, ?_, ?_, ?_, ?_⟩
  · simp [Expansion.namesClass, REGISTER_TO_FACTORY, h]
  · simp [Expansion.namesClass, REGISTER_TYPE_TO_FACTORY, h]
  · simp [Expansion.namesClass, REGISTER_TO_FACTORY_WITH_CTOR, h]
  · simp [lookup, declarations, fits]
  · simp [Expansion.namesClass, facadeCall, lookup, declarations, fits]

end factory_hpp
end cls
